import Mathlib

/-!
# Marooned: resource chunk damage routing

A shallow embedding of `Source/Marooned/Private/WorldGen/MUResourceChunk.cpp`.

* Objects that the C++ code reaches through pointers live in an object store
  (`Heap`); a pointer is an index into it (`Addr`), a nullable pointer is an
  `Option Addr`.
* `int32` values are `Int`, `float` values are taken as exact rationals.
* Calls into code that is outside this translation unit (the on-screen
  diagnostics, the log, the multicast thunk, and the methods of the instance
  component) are recorded, in program order, as `Event`s.
* Indexing a `TArray` outside its range and reading through a null pointer
  end the call with a `Fault`.
-/

namespace Marooned

/-! ## Engine-side data -/

/-- Address of an object in the object store. -/
abbrev Addr := Nat

/-- Gameplay tags are compared by name. -/
abbrev FGameplayTag := String

/-- Tag container of the engine: the tags added explicitly and the parents
they imply. -/
structure FGameplayTagContainer where
  GameplayTags : List FGameplayTag
  ParentTags : List FGameplayTag
deriving DecidableEq, Repr

/-- Engine query `HasTag`: the tag is held explicitly or as a parent. -/
def FGameplayTagContainer.HasTag (c : FGameplayTagContainer) (t : FGameplayTag) : Bool :=
  c.GameplayTags.contains t || c.ParentTags.contains t

/-- Engine query `HasAll`: every explicit tag of `other` is held by `c`
(true when `other` is empty). -/
def FGameplayTagContainer.HasAll (c other : FGameplayTagContainer) : Bool :=
  other.GameplayTags.all (fun t => c.HasTag t)

/-- Result `FTagContainerAggregator` of tag capture; `GetSpecTags` reads `SpecTags`. -/
structure FTagContainerAggregator where
  SpecTags : FGameplayTagContainer
deriving DecidableEq, Repr

/-- Attribute set of the game (`UMaroonedAttributeSet`); only the attribute
read by the chunk is kept. -/
structure UMaroonedAttributeSet where
  ToolStrength : ℚ
deriving DecidableEq, Repr

/-- An attribute set object, by dynamic class. -/
inductive UAttributeSet where
  | Marooned (s : UMaroonedAttributeSet)
  | Other (ClassName : String)
deriving DecidableEq, Repr

/-- The two class objects the chunk passes to `GetAttributeSet`. -/
inductive UClass where
  | UAttributeSet_StaticClass
  | UMaroonedAttributeSet_StaticClass
deriving DecidableEq, Repr

/-- Engine query `IsA`: every set is a `UAttributeSet`. -/
def UAttributeSet.IsA : UAttributeSet → UClass → Bool
  | _, .UAttributeSet_StaticClass => true
  | .Marooned _, .UMaroonedAttributeSet_StaticClass => true
  | .Other _, .UMaroonedAttributeSet_StaticClass => false

/-- The engine downcast `Cast<UMaroonedAttributeSet>`. -/
def UAttributeSet.CastMarooned : UAttributeSet → Option UMaroonedAttributeSet
  | .Marooned s => some s
  | .Other _ => none

/-- Ability system component of an instigator: its spawned attribute sets. -/
structure UAbilitySystemComponent where
  SpawnedAttributes : List UAttributeSet
deriving DecidableEq, Repr

/-- Engine query `GetAttributeSet`: the first spawned set of the class, or null. -/
def UAbilitySystemComponent.GetAttributeSet (asc : UAbilitySystemComponent) (cls : UClass) :
    Option UAttributeSet :=
  asc.SpawnedAttributes.find? (fun s => s.IsA cls)

/-- An actor, as far as the chunk reads it (`GetFName`). -/
structure AActor where
  Name : String
deriving DecidableEq, Repr

/-- The hit record: `Item` is the instance index, `Component` the (weak)
reference to the struck component; the geometry is carried along untouched. -/
structure FHitResult where
  Item : Int
  Component : Option Addr
  Geometry : List ℚ
deriving DecidableEq, Repr

/-- Effect context handle; each getter of an unset part yields null. -/
structure FGameplayEffectContextHandle where
  HitResult : Option FHitResult
  Instigator : Option AActor
  InstigatorAbilitySystemComponent : Option UAbilitySystemComponent
deriving DecidableEq, Repr

structure FGameplayEffectSpec where
  CapturedSourceTags : FTagContainerAggregator
  EffectContext : FGameplayEffectContextHandle
deriving DecidableEq, Repr

structure FGameplayModifierEvaluatedData where
  Magnitude : ℚ
deriving DecidableEq, Repr

structure FGameplayEffectModCallbackData where
  EvaluatedData : FGameplayModifierEvaluatedData
  EffectSpec : FGameplayEffectSpec
deriving DecidableEq, Repr

structure FTransform where
  Translation : List ℚ
deriving DecidableEq, Repr

inductive ENetMode where
  | NM_Standalone
  | NM_DedicatedServer
  | NM_ListenServer
  | NM_Client
  | NM_MAX
deriving DecidableEq, Repr

/-- Numeric value of the enumerator, in declaration order. -/
def ENetMode.toNat : ENetMode → Nat
  | .NM_Standalone => 0
  | .NM_DedicatedServer => 1
  | .NM_ListenServer => 2
  | .NM_Client => 3
  | .NM_MAX => 4

/-! ## Game-side data -/

/-- Resource definition asset (`UResourceDataAsset`), read-only. -/
structure UResourceDataAsset where
  RequiredTags : FGameplayTagContainer
  ToolStrength : ℚ
deriving DecidableEq, Repr

/-- Instance pool component (`UMUResourceInstanceComponent`). The fields the
chunk writes are `ComponentIndex`, `NumCustomDataFloats`,
`CollisionProfileName`, `AttachParent` and `DataAsset`. The state of the
instances is kept by the component itself and changes only through its own
methods `Populate` and `TakeDamage`. -/
structure UMUResourceInstanceComponent where
  Name : String
  ComponentIndex : Int
  NumCustomDataFloats : Int
  CollisionProfileName : String
  AttachParent : Option Addr
  DataAsset : Option UResourceDataAsset
deriving DecidableEq, Repr

/-- An object of the store, by dynamic class. -/
inductive UObject where
  | ResourceInstance (c : UMUResourceInstanceComponent)
  | Other (ClassName : String) (Name : String)
deriving DecidableEq, Repr

/-- Object store. -/
abbrev Heap := List UObject

/-- The engine downcast `Cast<UMUResourceInstanceComponent>` of a nullable
pointer: null for a null pointer and for an object of another class. -/
def Cast (heap : Heap) (p : Option Addr) : Option UMUResourceInstanceComponent :=
  match p with
  | none => none
  | some a =>
    match heap[a]? with
    | some (.ResourceInstance c) => some c
    | _ => none

/-- The chunk actor (`AMUResourceChunk`). `NetMode` is what `GetNetMode()`
reports for it. -/
structure AMUResourceChunk where
  NetMode : ENetMode
  RootComponent : Option Addr
  AbilitySystemComponent : Option Addr
  AttributeSet : Option Addr
  ResourceInstanceComponents : List Addr
deriving DecidableEq, Repr

/-! ## Effects and faults -/

inductive Fault where
  | ArrayOutOfBounds
  | NullDereference
deriving DecidableEq, Repr

/-- Calls that leave the translation unit, in program order. -/
inductive Event where
  /-- Call `GEngine->AddOnScreenDebugMessage(-1, 5.0f, FColor::Red, Text)`. -/
  | ScreenMessage (Text : String)
  /-- Call `UE_LOG(LogTemp, Warning, Text)`. -/
  | LogWarning (Text : String)
  /-- Call of the reliable multicast `MulticastTakeDamage`. -/
  | MulticastTakeDamage (InstanceIndex ComponentIndex : Int) (Damage : ℚ) (HitResult : FHitResult)
  /-- Call `Component->TakeDamage(InstanceIndex, Damage, HitResult)`. -/
  | TakeDamage (Component : Addr) (InstanceIndex : Int) (Damage : ℚ) (HitResult : FHitResult)
  /-- Call `Component->Populate(Transforms)`. -/
  | Populate (Component : Addr) (Transforms : List FTransform)
deriving DecidableEq, Repr

/-- What a `void` member function did: the calls it made, the fault that
ended it (if any), and the object store it left. -/
structure Run where
  Events : List Event
  Fault : Option Fault
  Heap : Heap
deriving DecidableEq, Repr

/-- How a `bool` member function ended. -/
inductive Verdict where
  | Returned (Value : Bool)
  | Crashed (Fault : Fault)
deriving DecidableEq, Repr

/-- What `CheckRequirements` did: its log lines and how it ended. -/
structure Checked where
  Events : List Event
  Result : Verdict
deriving DecidableEq, Repr

/-- Element access `TArray::operator[]` with its range check. -/
def TArrayIndex {α : Type} (xs : List α) (Index : Int) : Option α :=
  if Index < 0 then none else xs[Index.toNat]?

/-! ## The chunk (`MUResourceChunk.cpp`) -/

/-- Body of the constructor loop for index `i`: the default subobject
`ResourceComponent_i`, attached to the root, with its index, one custom data
float and the `Pawn` collision profile. Every other field has the zeroed
default of a new object. -/
def NewResourceComponent (Root : Option Addr) (i : Nat) : UMUResourceInstanceComponent :=
  { Name := "ResourceComponent_" ++ toString i
    ComponentIndex := i
    NumCustomDataFloats := 1
    CollisionProfileName := "Pawn"
    AttachParent := Root
    DataAsset := none }

/-- The constructor loop `for (int32 i = 0; i < NumResourceComponents; ++i)`,
started at `i` with `steps` iterations left to unfold: each iteration creates
one component and adds its pointer to `ResourceInstanceComponents`. -/
def ConstructorLoop (NumResourceComponents : Nat) (Root : Option Addr) :
    Nat → Nat → Heap × List Addr → Heap × List Addr
  | 0, _, st => st
  | steps + 1, i, (heap, comps) =>
    if i < NumResourceComponents then
      ConstructorLoop NumResourceComponents Root steps (i + 1)
        (heap ++ [UObject.ResourceInstance (NewResourceComponent Root i)], comps ++ [heap.length])
    else (heap, comps)

/-- Constructor `AMUResourceChunk::AMUResourceChunk`: creates the scene root,
the ability system component and the attribute set, then the fixed number of
instance components. `NumResourceComponents` is the class constant of the
header. -/
def AMUResourceChunk.Construct (NumResourceComponents : Nat) (NetMode : ENetMode) (heap : Heap) :
    Heap × AMUResourceChunk :=
  let SceneComp := heap.length
  let heap1 := heap ++ [UObject.Other "USceneComponent" "SceneRoot"]
  let ASC := heap1.length
  let heap2 := heap1 ++ [UObject.Other "UMaroonedAbilitySystemComponent" "AbilitySystem"]
  let Attr := heap2.length
  let heap3 := heap2 ++ [UObject.Other "UMUResourceAttributeSet" "AttributeSet"]
  let st := ConstructorLoop NumResourceComponents (some SceneComp) NumResourceComponents 0 (heap3, [])
  (st.1,
   { NetMode := NetMode
     RootComponent := some SceneComp
     AbilitySystemComponent := some ASC
     AttributeSet := some Attr
     ResourceInstanceComponents := st.2 })

/-- Member `AMUResourceChunk::SpawnResourceGroup`. -/
def SpawnResourceGroup (NumResourceComponents : Nat) (heap : Heap) (self : AMUResourceChunk)
    (ComponentIndex : Int) (ResourceDataAsset : Option UResourceDataAsset)
    (Transforms : List FTransform) : Run :=
  if ComponentIndex ≥ (NumResourceComponents : Int) then
    ⟨[.ScreenMessage "Exceeded max number of ResourceInstanceComponents"], none, heap⟩
  else
    match TArrayIndex self.ResourceInstanceComponents ComponentIndex with
    | none => ⟨[], some .ArrayOutOfBounds, heap⟩
    | some Comp =>
      match Cast heap (some Comp) with
      | none => ⟨[], some .NullDereference, heap⟩
      | some c =>
        ⟨[.Populate Comp Transforms], none,
          heap.set Comp (.ResourceInstance { c with DataAsset := ResourceDataAsset })⟩

/-- Member `AMUResourceChunk::MulticastTakeDamage_Implementation`. -/
def MulticastTakeDamage_Implementation (heap : Heap) (self : AMUResourceChunk)
    (InstanceIndex ComponentIndex : Int) (Damage : ℚ) (HitResult : FHitResult) : Run :=
  let Message : Event :=
    if self.NetMode.toNat < ENetMode.NM_Client.toNat then
      .ScreenMessage "MulticastTakeDamage called on Server"
    else
      .ScreenMessage "MulticastTakeDamage called on Remote Client"
  if ComponentIndex > -1 then
    match TArrayIndex self.ResourceInstanceComponents ComponentIndex with
    | none => ⟨[Message], some .ArrayOutOfBounds, heap⟩
    | some Comp =>
      match Cast heap (some Comp) with
      | none => ⟨[Message], some .NullDereference, heap⟩
      | some _ => ⟨[Message, .TakeDamage Comp InstanceIndex Damage HitResult], none, heap⟩
  else
    ⟨[Message], none, heap⟩

/-- Lines 205 to 228 of `CheckRequirements`: the downcast of the attribute
set that was found and the comparison of tool strengths. `Log` holds the
lines written so far. -/
def CheckRequirements.CompareToolStrength (Log : List Event) (AttSet : UAttributeSet)
    (ResourceData : UResourceDataAsset) : Checked :=
  match AttSet.CastMarooned with
  | none => ⟨Log ++ [.LogWarning "Failed to cast to UMaroonedAttributeSet"], .Returned false⟩
  | some InstigatorAttSet =>
    if InstigatorAttSet.ToolStrength < ResourceData.ToolStrength then
      ⟨Log ++ [.LogWarning "ToolStrength insufficient"], .Returned false⟩
    else
      ⟨Log, .Returned true⟩

/-- Member `AMUResourceChunk::CheckRequirements`. The definition is read
through its pointer at once (`ResourceData->RequiredTags`) and the instigator
actor is read through its pointer for the log line when the first lookup
finds nothing (`GetInstigator()->GetFName()`). -/
def CheckRequirements (EffectSpec : FGameplayEffectSpec)
    (ResourceData : Option UResourceDataAsset) : Checked :=
  match ResourceData with
  | none => ⟨[], .Crashed .NullDereference⟩
  | some ResourceData =>
    let SourceTags := EffectSpec.CapturedSourceTags.SpecTags
    let RequiredTags := ResourceData.RequiredTags
    if !SourceTags.HasAll RequiredTags then
      ⟨[.LogWarning "Failed to meet required tags"], .Returned false⟩
    else
      match EffectSpec.EffectContext.InstigatorAbilitySystemComponent with
      | none => ⟨[.LogWarning "Instigator AbilitySystemComponent not found"], .Returned false⟩
      | some InstigatorASC =>
        match InstigatorASC.GetAttributeSet .UMaroonedAttributeSet_StaticClass with
        | some AttSet => CheckRequirements.CompareToolStrength [] AttSet ResourceData
        | none =>
          match EffectSpec.EffectContext.Instigator with
          | none =>
            ⟨[.LogWarning "GetAttributeSet Failed to find UMaroonedAttributeSet"],
              .Crashed .NullDereference⟩
          | some Instigator =>
            let Log : List Event :=
              [.LogWarning "GetAttributeSet Failed to find UMaroonedAttributeSet",
               .LogWarning ("Instigator: " ++ Instigator.Name)]
            match InstigatorASC.GetAttributeSet .UAttributeSet_StaticClass with
            | none =>
              ⟨Log ++ [.LogWarning "GetAttributeSet Failed to find UAttributeSet"], .Returned false⟩
            | some AttSet => CheckRequirements.CompareToolStrength Log AttSet ResourceData

/-- Member `AMUResourceChunk::OnTakeDamage`. -/
def OnTakeDamage (heap : Heap) (self : AMUResourceChunk)
    (Data : FGameplayEffectModCallbackData) : Run :=
  let Message : Event :=
    if self.NetMode.toNat < ENetMode.NM_Client.toNat then
      .ScreenMessage "OnTakeDamage called on Server"
    else
      .ScreenMessage "OnTakeDamage called on Remote Client"
  let Damage := Data.EvaluatedData.Magnitude
  let EffectContext := Data.EffectSpec.EffectContext
  match EffectContext.HitResult with
  | none =>
    ⟨[Message, .ScreenMessage "Targeting did not produce a HitResult for Instanced Resource"],
      none, heap⟩
  | some HitResult =>
    let InstanceIndex := HitResult.Item
    match Cast heap HitResult.Component with
    | none => ⟨[Message, .ScreenMessage "Hit Component was not ResourceInstance"], none, heap⟩
    | some ResourceComponent =>
      let Check := CheckRequirements Data.EffectSpec ResourceComponent.DataAsset
      match Check.Result with
      | .Crashed f => ⟨Message :: Check.Events, some f, heap⟩
      | .Returned Met =>
        let Damage := if !Met then 0 else Damage
        let ComponentIndex := ResourceComponent.ComponentIndex
        ⟨Message :: Check.Events ++
            [.MulticastTakeDamage InstanceIndex ComponentIndex Damage HitResult],
          none, heap⟩

/-! ## Observers used in the statements -/

/-- The tuple carried by one `MulticastTakeDamage` call. -/
structure Broadcast where
  InstanceIndex : Int
  ComponentIndex : Int
  Damage : ℚ
  HitResult : FHitResult
deriving DecidableEq, Repr

/-- One `TakeDamage` call on a component. -/
structure DamageCall where
  Component : Addr
  InstanceIndex : Int
  Damage : ℚ
  HitResult : FHitResult
deriving DecidableEq, Repr

/-- The multicast calls among the events, in order. -/
def Broadcasts (es : List Event) : List Broadcast :=
  es.filterMap fun e =>
    match e with
    | .MulticastTakeDamage k j m h => some ⟨k, j, m, h⟩
    | _ => none

/-- The `TakeDamage` calls among the events, in order. -/
def DamageCalls (es : List Event) : List DamageCall :=
  es.filterMap fun e =>
    match e with
    | .TakeDamage c k m h => some ⟨c, k, m, h⟩
    | _ => none

/-- The three requirements of the validator, in the words of the
specification: (1) the captured source tags hold every required tag; (2) the
context resolves to an instigator ability system with an attribute set of the
game kind, found by the direct lookup or, when that finds nothing, by the
lookup of the generic kind; (3) the tool strength of that set is at least the
one the definition asks for. -/
def RequirementsMet (EffectSpec : FGameplayEffectSpec) (ResourceData : UResourceDataAsset) : Prop :=
  (∀ t ∈ ResourceData.RequiredTags.GameplayTags,
      t ∈ EffectSpec.CapturedSourceTags.SpecTags.GameplayTags ∨
      t ∈ EffectSpec.CapturedSourceTags.SpecTags.ParentTags) ∧
  ∃ asc set m,
    EffectSpec.EffectContext.InstigatorAbilitySystemComponent = some asc ∧
    (asc.GetAttributeSet .UMaroonedAttributeSet_StaticClass = some set ∨
      (asc.GetAttributeSet .UMaroonedAttributeSet_StaticClass = none ∧
        asc.GetAttributeSet .UAttributeSet_StaticClass = some set)) ∧
    set.CastMarooned = some m ∧
    ResourceData.ToolStrength ≤ m.ToolStrength

/-! ## Varying the tool strength of an instigator -/

/-- The same attribute set with its tool strength attribute set to `s`
(a set of another class has no such attribute). -/
def UAttributeSet.WithToolStrength (s : ℚ) : UAttributeSet → UAttributeSet
  | .Marooned _ => .Marooned ⟨s⟩
  | .Other n => .Other n

/-- The same effect spec (tags, context, instigator and its attribute sets)
with the tool strength of the instigator set to `s`. -/
def FGameplayEffectSpec.WithToolStrength (s : ℚ) (spec : FGameplayEffectSpec) :
    FGameplayEffectSpec :=
  { spec with
    EffectContext :=
      { spec.EffectContext with
        InstigatorAbilitySystemComponent :=
          spec.EffectContext.InstigatorAbilitySystemComponent.map fun asc =>
            ⟨asc.SpawnedAttributes.map (UAttributeSet.WithToolStrength s)⟩ } }

/-! ## The constructor invariant -/

/-- What the constructor establishes and no member function breaks: the
array holds `NumResourceComponents` pointers to distinct instance components,
and the one at position `i` carries `ComponentIndex = i`. -/
def WellFormed (NumResourceComponents : Nat) (heap : Heap) (self : AMUResourceChunk) : Prop :=
  self.ResourceInstanceComponents.length = NumResourceComponents ∧
  self.ResourceInstanceComponents.Nodup ∧
  ∀ i (h : i < self.ResourceInstanceComponents.length),
    (Cast heap (some self.ResourceInstanceComponents[i])).map (fun c => c.ComponentIndex) =
      some (i : Int)

instance (N : Nat) (heap : Heap) (self : AMUResourceChunk) : Decidable (WellFormed N heap self) := by
  unfold WellFormed
  infer_instance

/-- Invariant of the constructor loop. -/
def LoopInvariant (heap : Heap) (comps : List Addr) : Prop :=
  comps.Nodup ∧
  ∀ j (h : j < comps.length),
    (Cast heap (some comps[j])).map (fun c => c.ComponentIndex) = some (j : Int)

/-! ## Example data -/

/-- Tags of a chopping tool. -/
def ChopTags : FGameplayTagContainer := ⟨["Chop"], []⟩

/-- Tags asked for by a resource that must be mined. -/
def MineTags : FGameplayTagContainer := ⟨["Mine"], []⟩

/-- A resource that requires `Chop` and tool strength 2. -/
def TreeAsset : UResourceDataAsset := ⟨ChopTags, 2⟩

/-- A resource that requires `Mine` and tool strength 2. -/
def RockAsset : UResourceDataAsset := ⟨MineTags, 2⟩

/-- A chunk with two instance components, built by the constructor on an
empty object store, on a dedicated server. -/
def ExampleChunk : AMUResourceChunk :=
  (AMUResourceChunk.Construct 2 .NM_DedicatedServer []).2

/-- The same chunk as a remote client sees it. -/
def ClientChunk : AMUResourceChunk := { ExampleChunk with NetMode := .NM_Client }

/-- The object store after construction and after `TreeAsset` was spawned
into component 1 (at address 4). -/
def ExampleHeap : Heap :=
  (SpawnResourceGroup 2 (AMUResourceChunk.Construct 2 .NM_DedicatedServer []).1 ExampleChunk 1
    (some TreeAsset) [⟨[0, 0, 0]⟩, ⟨[5, 0, 0]⟩]).Heap

/-- Component 1 of `ExampleChunk` as it stands in `ExampleHeap`. -/
def ExampleComponent : UMUResourceInstanceComponent :=
  { NewResourceComponent (some 0) 1 with DataAsset := some TreeAsset }

/-- A hit on instance `k` of the component at address `a`. -/
def ExampleHit (a : Addr) (k : Int) : FHitResult := ⟨k, some a, [1, 2, 3]⟩

/-- An effect spec with the `Chop` tag from a player whose tool strength is
`s`, carrying the hit result `hit`. -/
def ExampleSpec (s : ℚ) (hit : Option FHitResult) : FGameplayEffectSpec :=
  ⟨⟨ChopTags⟩, ⟨hit, some ⟨"Player"⟩, some ⟨[.Other "UHealthSet", .Marooned ⟨s⟩]⟩⟩⟩

/-- A damage event of magnitude 10. -/
def ExampleData (s : ℚ) (hit : Option FHitResult) : FGameplayEffectModCallbackData :=
  ⟨⟨10⟩, ExampleSpec s hit⟩

/-- A damage event of magnitude 10 with the `Chop` tag whose context has an
instigator ability system without an attribute set of the game kind and no
instigator actor, carrying the hit result `hit`. -/
def OrphanData (hit : Option FHitResult) : FGameplayEffectModCallbackData :=
  ⟨⟨10⟩, ⟨⟨ChopTags⟩, ⟨hit, none, some ⟨[.Other "UHealthSet"]⟩⟩⟩⟩

/-- A second chunk built on the same object store (its components are at
addresses 8 and 9), with `TreeAsset` spawned into its component 0. -/
def OtherChunk : AMUResourceChunk :=
  (AMUResourceChunk.Construct 2 .NM_DedicatedServer ExampleHeap).2

/-- The object store holding both chunks. -/
def TwoChunkHeap : Heap :=
  (SpawnResourceGroup 2 (AMUResourceChunk.Construct 2 .NM_DedicatedServer ExampleHeap).1
    OtherChunk 0 (some TreeAsset) [⟨[9, 9, 9]⟩]).Heap

/-! ## Lemmas on the engine queries -/

theorem HasAll_iff (c other : FGameplayTagContainer) :
    c.HasAll other = true ↔
      ∀ t ∈ other.GameplayTags, t ∈ c.GameplayTags ∨ t ∈ c.ParentTags := by
  simp [FGameplayTagContainer.HasAll, FGameplayTagContainer.HasTag, List.all_eq_true]

theorem CastMarooned_of_direct {asc : UAbilitySystemComponent} {set : UAttributeSet}
    (h : asc.GetAttributeSet .UMaroonedAttributeSet_StaticClass = some set) :
    ∃ m, set = .Marooned m := by
  have h1 : set.IsA .UMaroonedAttributeSet_StaticClass = true := by
    simpa using List.find?_some h
  cases set with
  | Marooned m => exact ⟨m, rfl⟩
  | Other n => simp [UAttributeSet.IsA] at h1

theorem CastMarooned_of_fallback {asc : UAbilitySystemComponent} {set : UAttributeSet}
    (h0 : asc.GetAttributeSet .UMaroonedAttributeSet_StaticClass = none)
    (h : asc.GetAttributeSet .UAttributeSet_StaticClass = some set) :
    set.CastMarooned = none := by
  have hmem : set ∈ asc.SpawnedAttributes := List.mem_of_find?_eq_some h
  have hno := List.find?_eq_none.mp h0 set hmem
  cases set with
  | Marooned m => simp [UAttributeSet.IsA] at hno
  | Other n => rfl

theorem CompareToolStrength_true (Log : List Event) (set : UAttributeSet)
    (d : UResourceDataAsset) :
    (CheckRequirements.CompareToolStrength Log set d).Result = .Returned true ↔
      ∃ m, set.CastMarooned = some m ∧ d.ToolStrength ≤ m.ToolStrength := by
  unfold CheckRequirements.CompareToolStrength
  cases hc : set.CastMarooned with
  | none => simp
  | some m =>
    by_cases hlt : m.ToolStrength < d.ToolStrength
    · simp [hlt]
    · simp [hlt, not_lt.mp hlt]

theorem CompareToolStrength_returns (Log : List Event) (set : UAttributeSet)
    (d : UResourceDataAsset) :
    ∃ b, (CheckRequirements.CompareToolStrength Log set d).Result = .Returned b := by
  unfold CheckRequirements.CompareToolStrength
  cases set.CastMarooned with
  | none => exact ⟨false, rfl⟩
  | some m =>
    by_cases hlt : m.ToolStrength < d.ToolStrength
    · exact ⟨false, by simp [hlt]⟩
    · exact ⟨true, by simp [hlt]⟩

/-- The validator returns `true` exactly when the three requirements hold. -/
theorem CheckRequirements_true_iff (spec : FGameplayEffectSpec) (d : UResourceDataAsset) :
    (CheckRequirements spec (some d)).Result = .Returned true ↔ RequirementsMet spec d := by
  by_cases htags : spec.CapturedSourceTags.SpecTags.HasAll d.RequiredTags = true
  · have htags2 := (HasAll_iff _ _).mp htags
    cases hasc : spec.EffectContext.InstigatorAbilitySystemComponent with
    | none => simp [CheckRequirements, RequirementsMet, htags, hasc]
    | some asc =>
      cases hdir : asc.GetAttributeSet .UMaroonedAttributeSet_StaticClass with
      | some set =>
        simp only [CheckRequirements, RequirementsMet, htags, hasc, hdir, Bool.not_true,
          Bool.false_eq_true, if_false, CompareToolStrength_true]
        constructor
        · rintro ⟨m, hm, hle⟩
          exact ⟨htags2, asc, set, m, rfl, Or.inl hdir, hm, hle⟩
        · rintro ⟨-, asc2, set2, m, hx, hy, hm, hle⟩
          cases hx
          rcases hy with hy | ⟨hy, -⟩
          · rw [hdir] at hy; cases hy; exact ⟨m, hm, hle⟩
          · rw [hdir] at hy; cases hy
      | none =>
        have hfalse : ¬ RequirementsMet spec d := by
          rintro ⟨-, asc2, set2, m, hx, hy, hm, -⟩
          rw [hasc] at hx
          cases hx
          rcases hy with hy | ⟨-, hy⟩
          · rw [hdir] at hy; cases hy
          · rw [CastMarooned_of_fallback hdir hy] at hm; cases hm
        refine ⟨fun h => ?_, fun h => absurd h hfalse⟩
        exfalso
        cases hinst : spec.EffectContext.Instigator with
        | none => simp [CheckRequirements, htags, hasc, hdir, hinst] at h
        | some a =>
          cases hfb : asc.GetAttributeSet .UAttributeSet_StaticClass with
          | none => simp [CheckRequirements, htags, hasc, hdir, hinst, hfb] at h
          | some set =>
            simp only [CheckRequirements, htags, hasc, hdir, hinst, hfb, Bool.not_true,
              Bool.false_eq_true, if_false, CompareToolStrength_true] at h
            obtain ⟨m, hm, -⟩ := h
            rw [CastMarooned_of_fallback hdir hfb] at hm; cases hm
  · have htags2 : ¬ RequirementsMet spec d := fun h => htags ((HasAll_iff _ _).mpr h.1)
    simp [CheckRequirements, htags, htags2]

/-- The validator ends by returning, unless the direct lookup finds nothing
and the instigator actor is null. -/
theorem CheckRequirements_returns (spec : FGameplayEffectSpec) (d : UResourceDataAsset)
    (h : spec.EffectContext.Instigator ≠ none) :
    ∃ b, (CheckRequirements spec (some d)).Result = .Returned b := by
  by_cases htags : spec.CapturedSourceTags.SpecTags.HasAll d.RequiredTags = true
  · cases hasc : spec.EffectContext.InstigatorAbilitySystemComponent with
    | none => exact ⟨false, by simp [CheckRequirements, htags, hasc]⟩
    | some asc =>
      cases hdir : asc.GetAttributeSet .UMaroonedAttributeSet_StaticClass with
      | some set =>
        simpa [CheckRequirements, htags, hasc, hdir] using CompareToolStrength_returns [] set d
      | none =>
        cases hinst : spec.EffectContext.Instigator with
        | none => exact absurd hinst h
        | some a =>
          cases hfb : asc.GetAttributeSet .UAttributeSet_StaticClass with
          | none => exact ⟨false, by simp [CheckRequirements, htags, hasc, hdir, hinst, hfb]⟩
          | some set =>
            simpa [CheckRequirements, htags, hasc, hdir, hinst, hfb] using
              CompareToolStrength_returns _ set d
  · exact ⟨false, by simp [CheckRequirements, htags]⟩

/-- The requirements in terms of the direct lookup alone: a set found only by
the lookup of the generic kind is never of the game kind. -/
theorem RequirementsMet_iff_direct (spec : FGameplayEffectSpec) (d : UResourceDataAsset) :
    RequirementsMet spec d ↔
      spec.CapturedSourceTags.SpecTags.HasAll d.RequiredTags = true ∧
      ∃ asc m, spec.EffectContext.InstigatorAbilitySystemComponent = some asc ∧
        asc.GetAttributeSet .UMaroonedAttributeSet_StaticClass = some (.Marooned m) ∧
        d.ToolStrength ≤ m.ToolStrength := by
  constructor
  · rintro ⟨ht, asc, set, m, hasc, hy, hm, hle⟩
    refine ⟨(HasAll_iff _ _).mpr ht, asc, m, hasc, ?_, hle⟩
    rcases hy with hy | ⟨h0, hy⟩
    · obtain ⟨m2, rfl⟩ := CastMarooned_of_direct hy
      simp only [UAttributeSet.CastMarooned, Option.some.injEq] at hm
      rw [hy, hm]
    · rw [CastMarooned_of_fallback h0 hy] at hm; cases hm
  · rintro ⟨ht, asc, m, hasc, hdir, hle⟩
    exact ⟨(HasAll_iff _ _).mp ht, asc, .Marooned m, m, hasc, Or.inl hdir, rfl, hle⟩

theorem IsA_WithToolStrength (s : ℚ) (set : UAttributeSet) (cls : UClass) :
    (set.WithToolStrength s).IsA cls = set.IsA cls := by
  cases set <;> cases cls <;> rfl

theorem GetAttributeSet_WithToolStrength (s : ℚ) (asc : UAbilitySystemComponent) (cls : UClass) :
    UAbilitySystemComponent.GetAttributeSet
        ⟨asc.SpawnedAttributes.map (UAttributeSet.WithToolStrength s)⟩ cls =
      (asc.GetAttributeSet cls).map (UAttributeSet.WithToolStrength s) := by
  unfold UAbilitySystemComponent.GetAttributeSet
  rw [List.find?_map]
  congr 2
  funext x
  simp [IsA_WithToolStrength]

/-- Acceptance of a spec whose instigator tool strength is set to `s`. -/
theorem CheckRequirements_WithToolStrength (s : ℚ) (spec : FGameplayEffectSpec)
    (d : UResourceDataAsset) :
    (CheckRequirements (spec.WithToolStrength s) (some d)).Result = .Returned true ↔
      spec.CapturedSourceTags.SpecTags.HasAll d.RequiredTags = true ∧
      (∃ asc m, spec.EffectContext.InstigatorAbilitySystemComponent = some asc ∧
        asc.GetAttributeSet .UMaroonedAttributeSet_StaticClass = some (.Marooned m)) ∧
      d.ToolStrength ≤ s := by
  rw [CheckRequirements_true_iff, RequirementsMet_iff_direct]
  simp only [FGameplayEffectSpec.WithToolStrength, Option.map_eq_some']
  constructor
  · rintro ⟨ht, asc2, m, ⟨asc, hasc, rfl⟩, hdir, hle⟩
    rw [GetAttributeSet_WithToolStrength] at hdir
    cases hd : asc.GetAttributeSet .UMaroonedAttributeSet_StaticClass with
    | none => rw [hd] at hdir; cases hdir
    | some set =>
      obtain ⟨m0, rfl⟩ := CastMarooned_of_direct hd
      rw [hd] at hdir
      simp only [Option.map_some', UAttributeSet.WithToolStrength, Option.some.injEq,
        UAttributeSet.Marooned.injEq] at hdir
      subst hdir
      exact ⟨ht, ⟨asc, m0, hasc, hd⟩, hle⟩
  · rintro ⟨ht, ⟨asc, m0, hasc, hd⟩, hle⟩
    refine ⟨ht, _, ⟨s⟩, ⟨asc, hasc, rfl⟩, ?_, hle⟩
    rw [GetAttributeSet_WithToolStrength, hd]
    rfl

/-! ## Lemmas on the constructor invariant -/

theorem TArrayIndex_neg {α : Type} (xs : List α) (i : Int) (h : i < 0) :
    TArrayIndex xs i = none := by
  simp [TArrayIndex, h]

theorem TArrayIndex_ge {α : Type} (xs : List α) (i : Int) (h : (xs.length : Int) ≤ i) :
    TArrayIndex xs i = none := by
  have h0 : ¬ i < 0 := by omega
  have h1 : xs.length ≤ i.toNat := by omega
  simp [TArrayIndex, h0, h1]

theorem TArrayIndex_natCast {α : Type} (xs : List α) (n : Nat) :
    TArrayIndex xs (n : Int) = xs[n]? := by
  have h0 : ¬ (n : Int) < 0 := by omega
  simp [TArrayIndex, h0]

theorem Cast_append_left (heap : Heap) (o : UObject) (a : Addr) (h : a < heap.length) :
    Cast (heap ++ [o]) (some a) = Cast heap (some a) := by
  simp [Cast, List.getElem?_append_left h]

theorem Cast_lt_length {heap : Heap} {a : Addr} {c : UMUResourceInstanceComponent}
    (h : Cast heap (some a) = some c) : a < heap.length := by
  by_contra hge
  have : heap[a]? = none := List.getElem?_eq_none (Nat.le_of_not_lt hge)
  simp [Cast, this] at h

theorem LoopInvariant_mem_lt {heap : Heap} {comps : List Addr} (hinv : LoopInvariant heap comps)
    {a : Addr} (ha : a ∈ comps) : a < heap.length := by
  obtain ⟨j, hj, rfl⟩ := List.getElem_of_mem ha
  have h := hinv.2 j hj
  cases hc : Cast heap (some comps[j]) with
  | none => rw [hc] at h; cases h
  | some c => exact Cast_lt_length hc

theorem LoopInvariant_step (Root : Option Addr) (heap : Heap) (comps : List Addr)
    (hinv : LoopInvariant heap comps) :
    LoopInvariant (heap ++ [UObject.ResourceInstance (NewResourceComponent Root comps.length)])
      (comps ++ [heap.length]) := by
  refine ⟨?_, ?_⟩
  · rw [List.nodup_append]
    refine ⟨hinv.1, List.nodup_singleton _, ?_⟩
    intro a ha hb
    have hlt := LoopInvariant_mem_lt hinv ha
    rw [List.mem_singleton] at hb
    rw [hb] at hlt
    exact Nat.lt_irrefl _ hlt
  · intro j hj
    by_cases hlt : j < comps.length
    · rw [List.getElem_append_left hlt]
      rw [Cast_append_left _ _ _ (LoopInvariant_mem_lt hinv (List.getElem_mem _))]
      exact hinv.2 j hlt
    · have hj2 : j = comps.length := by
        simp at hj
        omega
      subst hj2
      simp [Cast, NewResourceComponent]

theorem ConstructorLoop_spec (N : Nat) (Root : Option Addr) :
    ∀ (steps i : Nat) (heap : Heap) (comps : List Addr),
      steps + i = N → comps.length = i → LoopInvariant heap comps →
      (ConstructorLoop N Root steps i (heap, comps)).2.length = N ∧
      LoopInvariant (ConstructorLoop N Root steps i (heap, comps)).1
        (ConstructorLoop N Root steps i (heap, comps)).2 := by
  intro steps
  induction steps with
  | zero =>
    intro i heap comps hN hlen hinv
    simp only [ConstructorLoop]
    exact ⟨by omega, hinv⟩
  | succ k ih =>
    intro i heap comps hN hlen hinv
    have hi : i < N := by omega
    simp only [ConstructorLoop, hi, if_true]
    apply ih
    · omega
    · simp [hlen]
    · rw [← hlen]
      exact LoopInvariant_step Root heap comps hinv

/-- The constructor establishes the invariant, whatever the object store
it starts from. -/
theorem Construct_WellFormed (N : Nat) (m : ENetMode) (heap : Heap) :
    WellFormed N (AMUResourceChunk.Construct N m heap).1 (AMUResourceChunk.Construct N m heap).2 := by
  have h := ConstructorLoop_spec N (some heap.length) N 0
    (heap ++ [UObject.Other "USceneComponent" "SceneRoot"] ++
      [UObject.Other "UMaroonedAbilitySystemComponent" "AbilitySystem"] ++
      [UObject.Other "UMUResourceAttributeSet" "AttributeSet"]) [] (by omega) rfl
    ⟨List.nodup_nil, by intro j hj; simp at hj⟩
  exact ⟨h.1, h.2.1, h.2.2⟩

/-! ## Lemmas on the member functions -/

theorem CompareToolStrength_events (Log : List Event) (set : UAttributeSet)
    (d : UResourceDataAsset) (h : ∀ e ∈ Log, ∃ t, e = Event.LogWarning t) :
    ∀ e ∈ (CheckRequirements.CompareToolStrength Log set d).Events, ∃ t, e = Event.LogWarning t := by
  unfold CheckRequirements.CompareToolStrength
  intro e he
  split at he
  · simp only [List.mem_append, List.mem_singleton] at he
    rcases he with he | he
    · exact h e he
    · exact ⟨_, he⟩
  · split at he
    · simp only [List.mem_append, List.mem_singleton] at he
      rcases he with he | he
      · exact h e he
      · exact ⟨_, he⟩
    · exact h e he

/-- The validator only writes log lines. -/
theorem CheckRequirements_events (spec : FGameplayEffectSpec) (rd : Option UResourceDataAsset) :
    ∀ e ∈ (CheckRequirements spec rd).Events, ∃ t, e = Event.LogWarning t := by
  intro e he
  cases rd with
  | none => simp [CheckRequirements] at he
  | some d =>
    by_cases htags : spec.CapturedSourceTags.SpecTags.HasAll d.RequiredTags = true
    · cases hasc : spec.EffectContext.InstigatorAbilitySystemComponent with
      | none => exact ⟨_, by simpa [CheckRequirements, htags, hasc] using he⟩
      | some asc =>
        cases hdir : asc.GetAttributeSet .UMaroonedAttributeSet_StaticClass with
        | some set =>
          simp only [CheckRequirements, htags, hasc, hdir, Bool.not_true, Bool.false_eq_true,
            if_false] at he
          exact CompareToolStrength_events [] set d (by simp) e he
        | none =>
          cases hinst : spec.EffectContext.Instigator with
          | none => exact ⟨_, by simpa [CheckRequirements, htags, hasc, hdir, hinst] using he⟩
          | some a =>
            cases hfb : asc.GetAttributeSet .UAttributeSet_StaticClass with
            | none =>
              simp only [CheckRequirements, htags, hasc, hdir, hinst, hfb, Bool.not_true,
                Bool.false_eq_true, if_false, List.mem_append, List.mem_cons,
                List.mem_singleton, List.not_mem_nil, or_false] at he
              rcases he with (he | he) | he <;> exact ⟨_, he⟩
            | some set =>
              simp only [CheckRequirements, htags, hasc, hdir, hinst, hfb, Bool.not_true,
                Bool.false_eq_true, if_false] at he
              refine CompareToolStrength_events _ set d ?_ e he
              intro e2 he2
              simp only [List.mem_cons, List.mem_singleton, List.not_mem_nil, or_false] at he2
              rcases he2 with he2 | he2 <;> exact ⟨_, he2⟩
    · exact ⟨_, by simpa [CheckRequirements, htags] using he⟩

theorem Broadcasts_of_log (es : List Event) (h : ∀ e ∈ es, ∃ t, e = Event.LogWarning t) :
    Broadcasts es = [] := by
  unfold Broadcasts
  rw [List.filterMap_eq_nil_iff]
  intro e he
  obtain ⟨t, rfl⟩ := h e he
  rfl

theorem DamageCalls_of_log (es : List Event) (h : ∀ e ∈ es, ∃ t, e = Event.LogWarning t) :
    DamageCalls es = [] := by
  unfold DamageCalls
  rw [List.filterMap_eq_nil_iff]
  intro e he
  obtain ⟨t, rfl⟩ := h e he
  rfl

/-- What `OnTakeDamage` does when the hit names an instance component and
the validator returns `b`. -/
theorem OnTakeDamage_of_hit (heap : Heap) (self : AMUResourceChunk)
    (Data : FGameplayEffectModCallbackData) (hit : FHitResult)
    (comp : UMUResourceInstanceComponent) (b : Bool)
    (hHit : Data.EffectSpec.EffectContext.HitResult = some hit)
    (hCast : Cast heap hit.Component = some comp)
    (hV : (CheckRequirements Data.EffectSpec comp.DataAsset).Result = .Returned b) :
    Broadcasts (OnTakeDamage heap self Data).Events =
        [⟨hit.Item, comp.ComponentIndex, if b then Data.EvaluatedData.Magnitude else 0, hit⟩] ∧
      DamageCalls (OnTakeDamage heap self Data).Events = [] ∧
      (OnTakeDamage heap self Data).Fault = none ∧
      (OnTakeDamage heap self Data).Heap = heap := by
  have hlog := CheckRequirements_events Data.EffectSpec comp.DataAsset
  have hb := Broadcasts_of_log _ hlog
  have hd := DamageCalls_of_log _ hlog
  unfold Broadcasts at hb
  unfold DamageCalls at hd
  by_cases hnm : self.NetMode.toNat < ENetMode.NM_Client.toNat <;> cases b <;>
    simp [OnTakeDamage, hHit, hCast, hV, hnm, Broadcasts, DamageCalls, List.filterMap_append,
      hb, hd, List.filterMap_cons]

theorem OnTakeDamage_of_crash (heap : Heap) (self : AMUResourceChunk)
    (Data : FGameplayEffectModCallbackData) (hit : FHitResult)
    (comp : UMUResourceInstanceComponent) (f : Fault)
    (hHit : Data.EffectSpec.EffectContext.HitResult = some hit)
    (hCast : Cast heap hit.Component = some comp)
    (hV : (CheckRequirements Data.EffectSpec comp.DataAsset).Result = .Crashed f) :
    Broadcasts (OnTakeDamage heap self Data).Events = [] ∧
      (OnTakeDamage heap self Data).Heap = heap := by
  have hlog := CheckRequirements_events Data.EffectSpec comp.DataAsset
  have hb := Broadcasts_of_log _ hlog
  unfold Broadcasts at hb
  by_cases hnm : self.NetMode.toNat < ENetMode.NM_Client.toNat <;>
    simp [OnTakeDamage, hHit, hCast, hV, hnm, Broadcasts, hb, List.filterMap_cons]

/-- The handler at an index that is in range and points to an instance
component. -/
theorem MulticastTakeDamage_of_index (heap : Heap) (self : AMUResourceChunk) (i : Nat) (c : Addr)
    (comp : UMUResourceInstanceComponent) (k : Int) (m : ℚ) (hit : FHitResult)
    (hc : self.ResourceInstanceComponents[i]? = some c)
    (hCast : Cast heap (some c) = some comp) :
    DamageCalls (MulticastTakeDamage_Implementation heap self k i m hit).Events = [⟨c, k, m, hit⟩] ∧
      (MulticastTakeDamage_Implementation heap self k i m hit).Fault = none ∧
      (MulticastTakeDamage_Implementation heap self k i m hit).Heap = heap := by
  have hi : (i : Int) > -1 := by omega
  by_cases hnm : self.NetMode.toNat < ENetMode.NM_Client.toNat <;>
    simp [MulticastTakeDamage_Implementation, hi, TArrayIndex_natCast, hc, hCast, hnm,
      DamageCalls, List.filterMap_cons]

theorem WellFormed_lookup {N : Nat} {heap : Heap} {self : AMUResourceChunk}
    (hwf : WellFormed N heap self) {i : Nat} {c : Addr}
    (hc : self.ResourceInstanceComponents[i]? = some c) :
    i < N ∧ ∃ comp, Cast heap (some c) = some comp ∧ comp.ComponentIndex = (i : Int) := by
  obtain ⟨hi, hget⟩ := List.getElem?_eq_some_iff.mp hc
  refine ⟨hwf.1 ▸ hi, ?_⟩
  have h := hwf.2.2 i hi
  rw [hget] at h
  cases hcast : Cast heap (some c) with
  | none => rw [hcast] at h; cases h
  | some comp =>
    rw [hcast] at h
    exact ⟨comp, rfl, by simpa using h⟩

/-- Writing the definition of the component at `c` keeps the invariant. -/
theorem WellFormed_set_DataAsset {N : Nat} {heap : Heap} {self : AMUResourceChunk}
    (hwf : WellFormed N heap self) (c : Addr) (comp : UMUResourceInstanceComponent)
    (hCast : Cast heap (some c) = some comp) (asset : Option UResourceDataAsset) :
    WellFormed N (heap.set c (.ResourceInstance { comp with DataAsset := asset })) self := by
  refine ⟨hwf.1, hwf.2.1, ?_⟩
  intro j hj
  have h := hwf.2.2 j hj
  by_cases hcj : c = self.ResourceInstanceComponents[j]
  · rw [← hcj] at h ⊢
    rw [hCast] at h
    have hlt := Cast_lt_length hCast
    simpa [Cast, List.getElem?_set_self hlt] using h
  · simpa [Cast, List.getElem?_set_ne hcj] using h

/-! ## The claims -/

/-- C2. For every effect spec and every non-null resource definition,
`CheckRequirements` returns `true` if and only if the three requirements hold
(source tags hold every required tag; the context resolves to an instigator
ability system holding an attribute set of the game kind, by the direct
lookup or by the generic one when the direct one finds nothing; the tool
strength of that set is at least the one of the definition). Whenever the
instigator actor is set the validator returns, so it returns `false` exactly
when a requirement fails. Tags `Chop` with strength 3 against required `Chop`
and threshold 2 are accepted; tags `Chop` against required `Mine` are rejected
whatever the instigator and its tool strength. -/
theorem CheckRequirements_reference (spec : FGameplayEffectSpec) (d : UResourceDataAsset) :
    ((CheckRequirements spec (some d)).Result = .Returned true ↔ RequirementsMet spec d) ∧
    (spec.EffectContext.Instigator ≠ none →
      ((CheckRequirements spec (some d)).Result = .Returned false ↔ ¬ RequirementsMet spec d)) ∧
    (∀ hit, (CheckRequirements (ExampleSpec 3 hit) (some TreeAsset)).Result = .Returned true) ∧
    (spec.CapturedSourceTags.SpecTags = ChopTags → d.RequiredTags = MineTags →
      (CheckRequirements spec (some d)).Result = .Returned false) := by
  refine ⟨CheckRequirements_true_iff spec d, ?_, ?_, ?_⟩
  · intro hinst
    obtain ⟨b, hb⟩ := CheckRequirements_returns spec d hinst
    rw [← CheckRequirements_true_iff, hb]
    cases b <;> simp
  · intro hit
    rw [CheckRequirements_true_iff, RequirementsMet_iff_direct]
    have htags : ChopTags.HasAll ChopTags = true := by decide
    refine ⟨htags, ⟨[.Other "UHealthSet", .Marooned ⟨3⟩]⟩, ⟨3⟩, rfl, by decide, ?_⟩
    show (2 : ℚ) ≤ 3
    norm_num
  · intro hs hd
    have : spec.CapturedSourceTags.SpecTags.HasAll d.RequiredTags = false := by
      rw [hs, hd]; decide
    simp [CheckRequirements, this]

/-- Witness for C2: the `Chop` spec of strength 3 against the tree (accepted)
and against the rock, which requires `Mine` (rejected). -/
theorem CheckRequirements_reference_witness :
    (ExampleSpec 3 none).EffectContext.Instigator ≠ none ∧
    (ExampleSpec 3 none).CapturedSourceTags.SpecTags = ChopTags ∧
    RockAsset.RequiredTags = MineTags ∧
    RequirementsMet (ExampleSpec 3 none) TreeAsset ∧
    ¬ RequirementsMet (ExampleSpec 3 none) RockAsset ∧
    (CheckRequirements (ExampleSpec 3 none) (some RockAsset)).Result = .Returned false :=
  ⟨by decide, rfl, rfl,
    (CheckRequirements_reference (ExampleSpec 3 none) TreeAsset).1.mp
      ((CheckRequirements_reference (ExampleSpec 3 none) TreeAsset).2.2.1 none),
    ((CheckRequirements_reference (ExampleSpec 3 none) RockAsset).2.1 (by decide)).mp
      ((CheckRequirements_reference (ExampleSpec 3 none) RockAsset).2.2.2 rfl rfl),
    (CheckRequirements_reference (ExampleSpec 3 none) RockAsset).2.2.2 rfl rfl⟩

/-- C8. With the definition, the source tags and the instigator fixed, and
tool strengths `s ≤ s'`: if `CheckRequirements` accepts with instigator tool
strength `s` it accepts with `s'`; and when the tag check passes and the
instigator ability system holds an attribute set of the game kind, every
strength below the `ToolStrength` of the definition is rejected and every
strength at or above it is accepted. -/
theorem CheckRequirements_monotone (spec : FGameplayEffectSpec) (d : UResourceDataAsset)
    (s s' : ℚ) (hle : s ≤ s') :
    ((CheckRequirements (spec.WithToolStrength s) (some d)).Result = .Returned true →
      (CheckRequirements (spec.WithToolStrength s') (some d)).Result = .Returned true) ∧
    (spec.CapturedSourceTags.SpecTags.HasAll d.RequiredTags = true →
      (∃ asc m, spec.EffectContext.InstigatorAbilitySystemComponent = some asc ∧
        asc.GetAttributeSet .UMaroonedAttributeSet_StaticClass = some (.Marooned m)) →
      (s < d.ToolStrength →
        (CheckRequirements (spec.WithToolStrength s) (some d)).Result = .Returned false) ∧
      (d.ToolStrength ≤ s →
        (CheckRequirements (spec.WithToolStrength s) (some d)).Result = .Returned true)) := by
  refine ⟨?_, ?_⟩
  · rw [CheckRequirements_WithToolStrength, CheckRequirements_WithToolStrength]
    rintro ⟨ht, hset, hthr⟩
    exact ⟨ht, hset, le_trans hthr hle⟩
  · intro ht hset
    refine ⟨?_, fun hthr => (CheckRequirements_WithToolStrength s spec d).mpr ⟨ht, hset, hthr⟩⟩
    intro hlt
    obtain ⟨asc, m, hasc, hdir⟩ := hset
    have hdir2 := GetAttributeSet_WithToolStrength s asc .UMaroonedAttributeSet_StaticClass
    rw [hdir] at hdir2
    have ht2 : (spec.WithToolStrength s).CapturedSourceTags.SpecTags.HasAll d.RequiredTags
        = true := ht
    have hasc2 : (spec.WithToolStrength s).EffectContext.InstigatorAbilitySystemComponent =
        some ⟨asc.SpawnedAttributes.map (UAttributeSet.WithToolStrength s)⟩ := by
      simp [FGameplayEffectSpec.WithToolStrength, hasc]
    simp [CheckRequirements, ht2, hasc2, hdir2, UAttributeSet.WithToolStrength,
      CheckRequirements.CompareToolStrength, UAttributeSet.CastMarooned, hlt]

/-- Witness for C8: the `Chop` spec against the tree (threshold 2): rejected
at strength 1, accepted at strength 3, and so accepted at strength 5. -/
theorem CheckRequirements_monotone_witness :
    (1 : ℚ) ≤ 3 ∧ (3 : ℚ) ≤ 5 ∧
    (CheckRequirements ((ExampleSpec 0 none).WithToolStrength 1) (some TreeAsset)).Result =
      .Returned false ∧
    (CheckRequirements ((ExampleSpec 0 none).WithToolStrength 3) (some TreeAsset)).Result =
      .Returned true ∧
    (CheckRequirements ((ExampleSpec 0 none).WithToolStrength 5) (some TreeAsset)).Result =
      .Returned true :=
  ⟨by norm_num, by norm_num,
    ((CheckRequirements_monotone (ExampleSpec 0 none) TreeAsset 1 3 (by norm_num)).2 (by decide)
      ⟨_, ⟨0⟩, rfl, by decide⟩).1 (by show (1 : ℚ) < 2; norm_num),
    ((CheckRequirements_monotone (ExampleSpec 0 none) TreeAsset 3 5 (by norm_num)).2 (by decide)
      ⟨_, ⟨0⟩, rfl, by decide⟩).2 (by show (2 : ℚ) ≤ 3; norm_num),
    (CheckRequirements_monotone (ExampleSpec 0 none) TreeAsset 3 5 (by norm_num)).1 (by decide)⟩

/-- Whenever the validator returns. For every damage event whose hit names an
instance component with a bound definition, `OnTakeDamage` issues exactly one
multicast call, carrying the item index of the hit, the `ComponentIndex` of
the struck component and the unchanged hit result; its magnitude is the
evaluated magnitude when the validator accepts and 0 when it rejects. The
validator does accept or reject whenever the instigator actor of the context
is set. -/
theorem OnTakeDamage_broadcast_gated (heap : Heap) (self : AMUResourceChunk)
    (Data : FGameplayEffectModCallbackData) (hit : FHitResult)
    (comp : UMUResourceInstanceComponent) (d : UResourceDataAsset)
    (hHit : Data.EffectSpec.EffectContext.HitResult = some hit)
    (hCast : Cast heap hit.Component = some comp)
    (hDef : comp.DataAsset = some d) :
    ((CheckRequirements Data.EffectSpec (some d)).Result = .Returned true →
      Broadcasts (OnTakeDamage heap self Data).Events =
        [⟨hit.Item, comp.ComponentIndex, Data.EvaluatedData.Magnitude, hit⟩]) ∧
    ((CheckRequirements Data.EffectSpec (some d)).Result = .Returned false →
      Broadcasts (OnTakeDamage heap self Data).Events =
        [⟨hit.Item, comp.ComponentIndex, 0, hit⟩]) ∧
    (Data.EffectSpec.EffectContext.Instigator ≠ none →
      (CheckRequirements Data.EffectSpec (some d)).Result = .Returned true ∨
      (CheckRequirements Data.EffectSpec (some d)).Result = .Returned false) := by
  refine ⟨?_, ?_, ?_⟩
  · intro hV
    rw [← hDef] at hV
    simpa using (OnTakeDamage_of_hit heap self Data hit comp true hHit hCast hV).1
  · intro hV
    rw [← hDef] at hV
    simpa using (OnTakeDamage_of_hit heap self Data hit comp false hHit hCast hV).1
  · intro hinst
    obtain ⟨b, hb⟩ := CheckRequirements_returns Data.EffectSpec d hinst
    cases b
    · exact Or.inr hb
    · exact Or.inl hb

/-- Required tool strength 2, instigator tool strength 1, a hit on instance 7
of component 1: one multicast call with magnitude 0. -/
theorem OnTakeDamage_broadcast_gated_witness :
    (ExampleData 1 (some (ExampleHit 4 7))).EffectSpec.EffectContext.HitResult =
      some (ExampleHit 4 7) ∧
    (CheckRequirements (ExampleData 1 (some (ExampleHit 4 7))).EffectSpec (some TreeAsset)).Result =
      .Returned false ∧
    Broadcasts (OnTakeDamage ExampleHeap ExampleChunk (ExampleData 1 (some (ExampleHit 4 7)))).Events =
      [⟨7, 1, 0, ExampleHit 4 7⟩] :=
  ⟨rfl, by decide,
    (OnTakeDamage_broadcast_gated ExampleHeap ExampleChunk (ExampleData 1 (some (ExampleHit 4 7)))
      (ExampleHit 4 7) ExampleComponent TreeAsset rfl (by decide) rfl).2.1 (by decide)⟩

/-- C3, at the code. Take a damage event whose hit names an instance
component with a bound definition, whose source tags pass the tag check, and
whose context has an instigator ability system without an attribute set of
the game kind and a null instigator actor. The validator reads the actor
through its null pointer for its log line (`GetInstigator()->GetFName()`), so
`OnTakeDamage` ends with that fault after the lookup warning: no multicast
call is made, where the claim has exactly one, of magnitude 0. -/
theorem OnTakeDamage_null_instigator_no_broadcast (heap : Heap) (self : AMUResourceChunk)
    (Data : FGameplayEffectModCallbackData) (hit : FHitResult)
    (comp : UMUResourceInstanceComponent) (d : UResourceDataAsset)
    (asc : UAbilitySystemComponent)
    (hHit : Data.EffectSpec.EffectContext.HitResult = some hit)
    (hCast : Cast heap hit.Component = some comp)
    (hDef : comp.DataAsset = some d)
    (hTags : Data.EffectSpec.CapturedSourceTags.SpecTags.HasAll d.RequiredTags = true)
    (hASC : Data.EffectSpec.EffectContext.InstigatorAbilitySystemComponent = some asc)
    (hDir : asc.GetAttributeSet .UMaroonedAttributeSet_StaticClass = none)
    (hInst : Data.EffectSpec.EffectContext.Instigator = none) :
    (OnTakeDamage heap self Data).Fault = some .NullDereference ∧
    Broadcasts (OnTakeDamage heap self Data).Events = [] ∧
    DamageCalls (OnTakeDamage heap self Data).Events = [] ∧
    (∃ t, (OnTakeDamage heap self Data).Events =
      [.ScreenMessage t,
       .LogWarning "GetAttributeSet Failed to find UMaroonedAttributeSet"]) ∧
    (OnTakeDamage heap self Data).Heap = heap := by
  have hV : CheckRequirements Data.EffectSpec comp.DataAsset =
      ⟨[.LogWarning "GetAttributeSet Failed to find UMaroonedAttributeSet"],
        .Crashed .NullDereference⟩ := by
    simp [CheckRequirements, hDef, hTags, hASC, hDir, hInst]
  by_cases hnm : self.NetMode.toNat < ENetMode.NM_Client.toNat <;>
    simp [OnTakeDamage, hHit, hCast, hV, hnm, Broadcasts, DamageCalls]

/-- Failing input for C3: a hit on instance 7 of component 1 of the example
chunk (definition bound, tags `Chop` against required `Chop`), from a context
with no instigator actor whose ability system holds only a `UHealthSet`. -/
theorem OnTakeDamage_null_instigator_no_broadcast_witness :
    Cast ExampleHeap (ExampleHit 4 7).Component = some ExampleComponent ∧
    ExampleComponent.DataAsset = some TreeAsset ∧
    (OnTakeDamage ExampleHeap ExampleChunk (OrphanData (some (ExampleHit 4 7)))).Fault =
      some .NullDereference ∧
    Broadcasts (OnTakeDamage ExampleHeap ExampleChunk (OrphanData (some (ExampleHit 4 7)))).Events =
      [] :=
  ⟨by decide, rfl,
    (OnTakeDamage_null_instigator_no_broadcast ExampleHeap ExampleChunk
      (OrphanData (some (ExampleHit 4 7))) (ExampleHit 4 7) ExampleComponent TreeAsset
      ⟨[.Other "UHealthSet"]⟩ rfl (by decide) rfl (by decide) rfl (by decide) rfl).1,
    (OnTakeDamage_null_instigator_no_broadcast ExampleHeap ExampleChunk
      (OrphanData (some (ExampleHit 4 7))) (ExampleHit 4 7) ExampleComponent TreeAsset
      ⟨[.Other "UHealthSet"]⟩ rfl (by decide) rfl (by decide) rfl (by decide) rfl).2.1⟩

/-- C6. For every damage event whose context carries no hit result,
`OnTakeDamage` writes its two diagnostics and returns: the validator is not
run (no log line), no multicast call and no `TakeDamage` call is made, and the
object store is unchanged. -/
theorem OnTakeDamage_missing_hit (heap : Heap) (self : AMUResourceChunk)
    (Data : FGameplayEffectModCallbackData)
    (hHit : Data.EffectSpec.EffectContext.HitResult = none) :
    (∃ t, (OnTakeDamage heap self Data).Events =
      [.ScreenMessage t,
       .ScreenMessage "Targeting did not produce a HitResult for Instanced Resource"]) ∧
    Broadcasts (OnTakeDamage heap self Data).Events = [] ∧
    DamageCalls (OnTakeDamage heap self Data).Events = [] ∧
    (OnTakeDamage heap self Data).Fault = none ∧
    (OnTakeDamage heap self Data).Heap = heap := by
  by_cases hnm : self.NetMode.toNat < ENetMode.NM_Client.toNat <;>
    simp [OnTakeDamage, hHit, hnm, Broadcasts, DamageCalls]

/-- Witness for C6: an accepted effect of magnitude 10 without a hit result. -/
theorem OnTakeDamage_missing_hit_witness :
    (ExampleData 3 none).EffectSpec.EffectContext.HitResult = none ∧
    Broadcasts (OnTakeDamage ExampleHeap ExampleChunk (ExampleData 3 none)).Events = [] ∧
    (OnTakeDamage ExampleHeap ExampleChunk (ExampleData 3 none)).Heap = ExampleHeap :=
  ⟨rfl, (OnTakeDamage_missing_hit ExampleHeap ExampleChunk (ExampleData 3 none) rfl).2.1,
    (OnTakeDamage_missing_hit ExampleHeap ExampleChunk (ExampleData 3 none) rfl).2.2.2.2⟩

/-- C7, as the code has it. For every damage event whose hit names no
component or a component that is not of the instance component class (the
downcast yields null), `OnTakeDamage` writes its two diagnostics and returns:
no multicast call, no `TakeDamage` call, object store unchanged. -/
theorem OnTakeDamage_other_class_discarded (heap : Heap) (self : AMUResourceChunk)
    (Data : FGameplayEffectModCallbackData) (hit : FHitResult)
    (hHit : Data.EffectSpec.EffectContext.HitResult = some hit)
    (hCast : Cast heap hit.Component = none) :
    (∃ t, (OnTakeDamage heap self Data).Events =
      [.ScreenMessage t, .ScreenMessage "Hit Component was not ResourceInstance"]) ∧
    Broadcasts (OnTakeDamage heap self Data).Events = [] ∧
    DamageCalls (OnTakeDamage heap self Data).Events = [] ∧
    (OnTakeDamage heap self Data).Fault = none ∧
    (OnTakeDamage heap self Data).Heap = heap := by
  by_cases hnm : self.NetMode.toNat < ENetMode.NM_Client.toNat <;>
    simp [OnTakeDamage, hHit, hCast, hnm, Broadcasts, DamageCalls]

/-- Witness for the amended C7: a hit on the scene root (address 0). -/
theorem OnTakeDamage_other_class_discarded_witness :
    Cast ExampleHeap (ExampleHit 0 7).Component = none ∧
    Broadcasts (OnTakeDamage ExampleHeap ExampleChunk (ExampleData 3 (some (ExampleHit 0 7)))).Events
      = [] :=
  ⟨by decide,
    (OnTakeDamage_other_class_discarded ExampleHeap ExampleChunk
      (ExampleData 3 (some (ExampleHit 0 7))) (ExampleHit 0 7) rfl (by decide)).2.1⟩

/-- Counterexample to C7 as stated. The hit names component 0 of another
chunk (address 8, not among the pointers of `ExampleChunk`); `OnTakeDamage`
of `ExampleChunk` still issues a multicast call, with the index of the foreign
component, and the handler of `ExampleChunk` then calls `TakeDamage` on its
own component 0 (address 3). -/
theorem OnTakeDamage_foreign_pool_component_broadcasts :
    8 ∉ ExampleChunk.ResourceInstanceComponents ∧
    OtherChunk.ResourceInstanceComponents = [8, 9] ∧
    Broadcasts (OnTakeDamage TwoChunkHeap ExampleChunk (ExampleData 3 (some (ExampleHit 8 7)))).Events
      = [⟨7, 0, 10, ExampleHit 8 7⟩] ∧
    DamageCalls (MulticastTakeDamage_Implementation TwoChunkHeap ExampleChunk 7 0 10
      (ExampleHit 8 7)).Events = [⟨3, 7, 10, ExampleHit 8 7⟩] := by
  decide

/-- C5, as the code has it. `OnTakeDamage` reads the net mode only to choose
the text of its first diagnostic: with any other net mode, and so on a remote
client as on the server, it makes the same calls after that diagnostic, the
same multicast call among them, and ends the same way. -/
theorem OnTakeDamage_net_mode_only_text (heap : Heap) (self : AMUResourceChunk)
    (Data : FGameplayEffectModCallbackData) (m : ENetMode) :
    (OnTakeDamage heap { self with NetMode := m } Data).Events.tail =
      (OnTakeDamage heap self Data).Events.tail ∧
    Broadcasts (OnTakeDamage heap { self with NetMode := m } Data).Events =
      Broadcasts (OnTakeDamage heap self Data).Events ∧
    (OnTakeDamage heap { self with NetMode := m } Data).Fault =
      (OnTakeDamage heap self Data).Fault ∧
    (OnTakeDamage heap { self with NetMode := m } Data).Heap =
      (OnTakeDamage heap self Data).Heap := by
  have key : ∀ s : AMUResourceChunk, ∃ t rest,
      (OnTakeDamage heap s Data) =
        ⟨.ScreenMessage t :: rest, (OnTakeDamage heap self Data).Fault, heap⟩ ∧
      rest = (OnTakeDamage heap self Data).Events.tail := by
    intro s
    cases hHit : Data.EffectSpec.EffectContext.HitResult with
    | none =>
      by_cases h1 : s.NetMode.toNat < ENetMode.NM_Client.toNat <;>
        by_cases h2 : self.NetMode.toNat < ENetMode.NM_Client.toNat <;>
        simp [OnTakeDamage, hHit, h1, h2]
    | some hit =>
      cases hCast : Cast heap hit.Component with
      | none =>
        by_cases h1 : s.NetMode.toNat < ENetMode.NM_Client.toNat <;>
          by_cases h2 : self.NetMode.toNat < ENetMode.NM_Client.toNat <;>
          simp [OnTakeDamage, hHit, hCast, h1, h2]
      | some comp =>
        cases hV : (CheckRequirements Data.EffectSpec comp.DataAsset).Result <;>
          by_cases h1 : s.NetMode.toNat < ENetMode.NM_Client.toNat <;>
          by_cases h2 : self.NetMode.toNat < ENetMode.NM_Client.toNat <;>
          simp [OnTakeDamage, hHit, hCast, hV, h1, h2]
  obtain ⟨t1, r1, e1, hr1⟩ := key { self with NetMode := m }
  obtain ⟨t2, r2, e2, hr2⟩ := key self
  have hb : ∀ t r, Broadcasts (Event.ScreenMessage t :: r) = Broadcasts r := by
    intro t r
    simp [Broadcasts, List.filterMap_cons]
  rw [e1]
  refine ⟨by simpa using hr1, ?_, rfl, ?_⟩
  · rw [e2, hb, hb, hr1, hr2]
  · rw [e2]

/-- Counterexample to C5 as stated. On a chunk whose net mode is that of a
remote client, a damage event with a hit on instance 7 of component 1 leads to
a multicast call. -/
theorem OnTakeDamage_client_broadcasts :
    ClientChunk.NetMode = .NM_Client ∧
    (OnTakeDamage ExampleHeap ClientChunk (ExampleData 3 (some (ExampleHit 4 7)))).Events =
      [.ScreenMessage "OnTakeDamage called on Remote Client",
       .MulticastTakeDamage 7 1 10 (ExampleHit 4 7)] := by
  decide

/-- C1. The constructor establishes the invariant `WellFormed`
(`NumResourceComponents` instance components, the one at position `i` carrying
`ComponentIndex = i`). Take a chunk that satisfies it and a damage event whose
hit names the instance component `c` at position `i` of the chunk and the
instance index `hit.Item`. Every tuple that `OnTakeDamage` passes to
the multicast carries `(hit.Item, i)`, and the handler
`MulticastTakeDamage_Implementation`, given that tuple, makes exactly one
`TakeDamage` call: on `c`, with `hit.Item` and the magnitude of the tuple.
`OnTakeDamage` leaves the object store as it was, so a later hit is routed
the same way; and it does issue one tuple whenever the definition of `c` is
bound and the instigator actor is set. -/
theorem hit_attributed_to_struck_component (N : Nat) (heap : Heap) (self : AMUResourceChunk)
    (hwf : WellFormed N heap self) (Data : FGameplayEffectModCallbackData) (hit : FHitResult)
    (i : Nat) (c : Addr)
    (hc : self.ResourceInstanceComponents[i]? = some c)
    (hHit : Data.EffectSpec.EffectContext.HitResult = some hit)
    (hComp : hit.Component = some c) :
    (∀ (m : ENetMode) (heap0 : Heap),
      WellFormed N (AMUResourceChunk.Construct N m heap0).1
        (AMUResourceChunk.Construct N m heap0).2) ∧
    (∀ t ∈ Broadcasts (OnTakeDamage heap self Data).Events,
      t.InstanceIndex = hit.Item ∧ t.ComponentIndex = (i : Int) ∧ t.HitResult = hit ∧
      DamageCalls (MulticastTakeDamage_Implementation heap self
          t.InstanceIndex t.ComponentIndex t.Damage t.HitResult).Events =
        [⟨c, hit.Item, t.Damage, hit⟩] ∧
      (MulticastTakeDamage_Implementation heap self
          t.InstanceIndex t.ComponentIndex t.Damage t.HitResult).Fault = none) ∧
    (OnTakeDamage heap self Data).Heap = heap ∧
    (∀ comp d, Cast heap (some c) = some comp → comp.DataAsset = some d →
      Data.EffectSpec.EffectContext.Instigator ≠ none →
      ∃ t, Broadcasts (OnTakeDamage heap self Data).Events = [t]) := by
  obtain ⟨-, comp, hCast, hidx⟩ := WellFormed_lookup hwf hc
  have hCast2 : Cast heap hit.Component = some comp := by rw [hComp]; exact hCast
  have hM := fun (k : Int) (m : ℚ) =>
    MulticastTakeDamage_of_index heap self i c comp k m hit hc hCast
  cases hV : (CheckRequirements Data.EffectSpec comp.DataAsset).Result with
  | Returned b =>
    obtain ⟨hB, -, -, hH⟩ := OnTakeDamage_of_hit heap self Data hit comp b hHit hCast2 hV
    refine ⟨Construct_WellFormed N, ?_, hH, fun _ _ _ _ _ => ⟨_, hB⟩⟩
    intro t ht
    rw [hB, List.mem_singleton] at ht
    subst ht
    refine ⟨rfl, hidx, rfl, ?_, ?_⟩
    · show DamageCalls (MulticastTakeDamage_Implementation heap self hit.Item
        comp.ComponentIndex _ hit).Events = _
      rw [hidx]
      exact (hM _ _).1
    · show (MulticastTakeDamage_Implementation heap self hit.Item
        comp.ComponentIndex _ hit).Fault = none
      rw [hidx]
      exact (hM _ _).2.1
  | Crashed f =>
    obtain ⟨hB, hH⟩ := OnTakeDamage_of_crash heap self Data hit comp f hHit hCast2 hV
    refine ⟨Construct_WellFormed N, ?_, hH, ?_⟩
    · intro t ht
      rw [hB] at ht
      cases ht
    · intro comp2 d hC2 hd hinst
      rw [hCast] at hC2
      cases hC2
      obtain ⟨b, hb⟩ := CheckRequirements_returns Data.EffectSpec d hinst
      rw [hd, hb] at hV
      cases hV

/-- Witness for C1: two hits in sequence on instances 7 and 9 of component 1
(address 4) of the example chunk, the first accepted, the second rejected. -/
theorem hit_attributed_to_struck_component_witness :
    WellFormed 2 ExampleHeap ExampleChunk ∧
    ExampleChunk.ResourceInstanceComponents[1]? = some 4 ∧
    Broadcasts (OnTakeDamage ExampleHeap ExampleChunk (ExampleData 3 (some (ExampleHit 4 7)))).Events
      = [⟨7, 1, 10, ExampleHit 4 7⟩] ∧
    Broadcasts (OnTakeDamage
        (OnTakeDamage ExampleHeap ExampleChunk (ExampleData 3 (some (ExampleHit 4 7)))).Heap
        ExampleChunk (ExampleData 1 (some (ExampleHit 4 9)))).Events
      = [⟨9, 1, 0, ExampleHit 4 9⟩] ∧
    DamageCalls (MulticastTakeDamage_Implementation ExampleHeap ExampleChunk 7 1 10
      (ExampleHit 4 7)).Events = [⟨4, 7, 10, ExampleHit 4 7⟩] ∧
    DamageCalls (MulticastTakeDamage_Implementation ExampleHeap ExampleChunk 9 1 0
      (ExampleHit 4 9)).Events = [⟨4, 9, 0, ExampleHit 4 9⟩] :=
  ⟨by decide, by decide, by decide, by decide,
    ((hit_attributed_to_struck_component 2 ExampleHeap ExampleChunk (by decide)
      (ExampleData 3 (some (ExampleHit 4 7))) (ExampleHit 4 7) 1 4 (by decide) rfl rfl).2.1
        ⟨7, 1, 10, ExampleHit 4 7⟩ (by decide)).2.2.2.1,
    ((hit_attributed_to_struck_component 2 ExampleHeap ExampleChunk (by decide)
      (ExampleData 1 (some (ExampleHit 4 9))) (ExampleHit 4 9) 1 4 (by decide) rfl rfl).2.1
        ⟨9, 1, 0, ExampleHit 4 9⟩ (by decide)).2.2.2.1⟩

/-- C4, at the code. For a chunk that satisfies the constructor invariant
and every `ComponentIndex ≥ NumResourceComponents`, the handler passes its
only test (`ComponentIndex > -1`) and indexes the array out of range: the call
ends with the range-check fault, after the net mode diagnostic alone. -/
theorem MulticastTakeDamage_index_above_range (N : Nat) (heap : Heap) (self : AMUResourceChunk)
    (hwf : WellFormed N heap self) (k j : Int) (m : ℚ) (hit : FHitResult)
    (hj : (N : Int) ≤ j) :
    (MulticastTakeDamage_Implementation heap self k j m hit).Fault = some .ArrayOutOfBounds ∧
    ∃ t, (MulticastTakeDamage_Implementation heap self k j m hit).Events = [.ScreenMessage t] := by
  have h1 : j > -1 := by omega
  have h2 : TArrayIndex self.ResourceInstanceComponents j = none :=
    TArrayIndex_ge _ _ (by rw [hwf.1]; exact hj)
  by_cases hnm : self.NetMode.toNat < ENetMode.NM_Client.toNat <;>
    simp [MulticastTakeDamage_Implementation, h1, h2, hnm]

/-- Failing input for C4: `ComponentIndex = 2` on a chunk of two components. -/
theorem MulticastTakeDamage_index_above_range_witness :
    WellFormed 2 ExampleHeap ExampleChunk ∧
    (MulticastTakeDamage_Implementation ExampleHeap ExampleChunk 7 2 10 (ExampleHit 4 7)).Fault =
      some .ArrayOutOfBounds :=
  ⟨by decide,
    (MulticastTakeDamage_index_above_range 2 ExampleHeap ExampleChunk (by decide) 7 2 10
      (ExampleHit 4 7) (by decide)).1⟩

/-- C10, at the code. For every `ComponentIndex < 0`, `SpawnResourceGroup`
does not take its guard (`ComponentIndex >= NumResourceComponents`) and
indexes the array out of range: the call ends with the range-check fault and
no diagnostic was written. -/
theorem SpawnResourceGroup_negative_index (N : Nat) (heap : Heap) (self : AMUResourceChunk)
    (j : Int) (asset : Option UResourceDataAsset) (ts : List FTransform) (hj : j < 0) :
    SpawnResourceGroup N heap self j asset ts = ⟨[], some .ArrayOutOfBounds, heap⟩ := by
  have h1 : ¬ j ≥ (N : Int) := by omega
  simp [SpawnResourceGroup, h1, TArrayIndex_neg _ _ hj]

/-- Failing input for C10: `ComponentIndex = -1`. -/
theorem SpawnResourceGroup_negative_index_witness :
    (-1 : Int) < 0 ∧
    (SpawnResourceGroup 2 ExampleHeap ExampleChunk (-1) (some TreeAsset) [⟨[0, 0, 0]⟩]).Fault =
      some .ArrayOutOfBounds :=
  ⟨by decide,
    congrArg Run.Fault (SpawnResourceGroup_negative_index 2 ExampleHeap ExampleChunk (-1)
      (some TreeAsset) [⟨[0, 0, 0]⟩] (by decide))⟩

/-- C9. For every `ComponentIndex ≥ NumResourceComponents`,
`SpawnResourceGroup` writes its diagnostic and does nothing else, whatever the
array holds. On a chunk that satisfies the constructor invariant, for every
`ComponentIndex` in `[0, NumResourceComponents)` it sets the definition of the
addressed component, and of no other object, to the given one, and calls
`Populate` of that component, and of no other, with the given transforms. -/
theorem SpawnResourceGroup_bounds (N : Nat) (heap : Heap) (self : AMUResourceChunk)
    (asset : Option UResourceDataAsset) (ts : List FTransform) :
    (∀ j : Int, (N : Int) ≤ j →
      SpawnResourceGroup N heap self j asset ts =
        ⟨[.ScreenMessage "Exceeded max number of ResourceInstanceComponents"], none, heap⟩) ∧
    (WellFormed N heap self → ∀ j : Int, 0 ≤ j → j < (N : Int) →
      ∃ c comp, self.ResourceInstanceComponents[j.toNat]? = some c ∧
        Cast heap (some c) = some comp ∧
        (SpawnResourceGroup N heap self j asset ts).Events = [.Populate c ts] ∧
        (SpawnResourceGroup N heap self j asset ts).Fault = none ∧
        Cast (SpawnResourceGroup N heap self j asset ts).Heap (some c) =
          some { comp with DataAsset := asset } ∧
        (∀ a, a ≠ c → (SpawnResourceGroup N heap self j asset ts).Heap[a]? = heap[a]?) ∧
        WellFormed N (SpawnResourceGroup N heap self j asset ts).Heap self) := by
  refine ⟨?_, ?_⟩
  · intro j hj
    simp [SpawnResourceGroup, hj]
  · intro hwf j h0 hN
    have hlt : j.toNat < self.ResourceInstanceComponents.length := by rw [hwf.1]; omega
    have hc : self.ResourceInstanceComponents[j.toNat]? =
        some self.ResourceInstanceComponents[j.toNat] := List.getElem?_eq_getElem hlt
    obtain ⟨-, comp, hCast, -⟩ := WellFormed_lookup hwf hc
    have h1 : ¬ j ≥ (N : Int) := by omega
    have h2 : TArrayIndex self.ResourceInstanceComponents j =
        some self.ResourceInstanceComponents[j.toNat] := by
      have h3 : ¬ j < 0 := by omega
      simp [TArrayIndex, h3, hc]
    have hrun : SpawnResourceGroup N heap self j asset ts =
        ⟨[.Populate self.ResourceInstanceComponents[j.toNat] ts], none,
          heap.set self.ResourceInstanceComponents[j.toNat]
            (.ResourceInstance { comp with DataAsset := asset })⟩ := by
      simp [SpawnResourceGroup, h1, h2, hCast]
    refine ⟨_, comp, hc, hCast, ?_, ?_, ?_, ?_, ?_⟩
    · rw [hrun]
    · rw [hrun]
    · rw [hrun]
      simp [Cast, List.getElem?_set_self (Cast_lt_length hCast)]
    · intro a ha
      rw [hrun]
      simp [List.getElem?_set_ne (Ne.symm ha)]
    · rw [hrun]
      exact WellFormed_set_DataAsset hwf _ comp hCast asset

/-- Witness for C9: on the example chunk, index 2 is refused with the
diagnostic, and index 0 binds the rock to the component at address 3 and
populates it, leaving component 1 (address 4) as it was. -/
theorem SpawnResourceGroup_bounds_witness :
    WellFormed 2 ExampleHeap ExampleChunk ∧
    SpawnResourceGroup 2 ExampleHeap ExampleChunk 2 (some RockAsset) [⟨[1, 1, 1]⟩] =
      ⟨[.ScreenMessage "Exceeded max number of ResourceInstanceComponents"], none, ExampleHeap⟩ ∧
    (SpawnResourceGroup 2 ExampleHeap ExampleChunk 0 (some RockAsset) [⟨[1, 1, 1]⟩]).Events =
      [.Populate 3 [⟨[1, 1, 1]⟩]] ∧
    ∃ c comp, ExampleChunk.ResourceInstanceComponents[(0 : Int).toNat]? = some c ∧
      Cast ExampleHeap (some c) = some comp ∧
      (SpawnResourceGroup 2 ExampleHeap ExampleChunk 0 (some RockAsset) [⟨[1, 1, 1]⟩]).Events =
        [.Populate c [⟨[1, 1, 1]⟩]] ∧
      (SpawnResourceGroup 2 ExampleHeap ExampleChunk 0 (some RockAsset) [⟨[1, 1, 1]⟩]).Fault =
        none ∧
      Cast (SpawnResourceGroup 2 ExampleHeap ExampleChunk 0 (some RockAsset) [⟨[1, 1, 1]⟩]).Heap
        (some c) = some { comp with DataAsset := some RockAsset } ∧
      (∀ a, a ≠ c →
        (SpawnResourceGroup 2 ExampleHeap ExampleChunk 0 (some RockAsset) [⟨[1, 1, 1]⟩]).Heap[a]? =
          ExampleHeap[a]?) ∧
      WellFormed 2
        (SpawnResourceGroup 2 ExampleHeap ExampleChunk 0 (some RockAsset) [⟨[1, 1, 1]⟩]).Heap
        ExampleChunk :=
  ⟨by decide,
    (SpawnResourceGroup_bounds 2 ExampleHeap ExampleChunk (some RockAsset) [⟨[1, 1, 1]⟩]).1 2
      (by decide),
    by decide,
    (SpawnResourceGroup_bounds 2 ExampleHeap ExampleChunk (some RockAsset) [⟨[1, 1, 1]⟩]).2
      (by decide) 0 (by decide) (by decide)⟩

end Marooned
